import Mathlib

/-
Verification development for the Elephant Tracks trace-replay engine
(gem5-simulation sources: OracleReplayer.h/.cpp, TraceReplayerEnhanced.cpp,
TraceReplayer.c, AllocatorBackend.h).

The C/C++ sources are shallowly embedded: each class becomes a state
structure, each member function a pure Lean function on that structure.
Machine allocator behaviour (malloc returning a pointer or null) is
modelled by a boolean oracle indexed by the number of backend allocation
requests made so far; pointer values themselves carry no information the
replayer observes other than null-ness, so handles are modelled as the
request index.  Wall-clock timing (GC durations, allocation timestamps
taken from the host clock) is not observable by any statement proved here
and is modelled as zero.  size_t / uint64_t counters are modelled as Nat,
and the one counter the sources can drive downwards (current memory usage)
as Int, so that the "never negative" property is the meaningful statement
that the unsigned counter never underflows.
-/

namespace Tbl

/- Association-list model of std::map / std::unordered_map with unique
keys: lookup finds the first binding, erase removes every binding of the
key, insert (operator[] assignment) replaces any previous binding. -/

variable {K : Type} {V : Type} [DecidableEq K]

def tlookup (k : K) : List (K × V) → Option V
  | [] => none
  | (k1, v) :: rest => if k1 = k then some v else tlookup k rest

def terase (k : K) (t : List (K × V)) : List (K × V) :=
  t.filter (fun p => p.1 ≠ k)

def tinsert (k : K) (v : V) (t : List (K × V)) : List (K × V) :=
  (k, v) :: terase k t

def tlookupD (k : K) (t : List (K × V)) (d : V) : V :=
  (tlookup k t).getD d

def keysNodup (t : List (K × V)) : Prop :=
  (t.map Prod.fst).Nodup

end Tbl

namespace oracle

/- Embedding of namespace oracle (OracleReplayer.h / OracleReplayer.cpp). -/

/-- Oracle event from CSV (struct Event).  event_type is kept as the raw
character list of the CSV field; "alloc" / "free" comparisons mirror
the is_alloc / is_free member predicates. -/
structure Event where
  timestamp : Nat
  event_type : List Char
  object_id : Nat
  size : Nat
  site_id : Nat
  thread_id : Nat
  type_id : Nat
deriving DecidableEq

def Event.is_alloc (e : Event) : Bool := e.event_type == "alloc".data

def Event.is_free (e : Event) : Bool := e.event_type == "free".data

/-- struct AllocatedObject.  The raw pointer (address) is not modelled:
the replayer only ever passes it back to free, so it carries no
observable state. -/
structure AllocatedObject where
  size : Nat
  alloc_time : Nat
  site_id : Nat
deriving DecidableEq

/-- struct Statistics of OracleReplayer.h.  current_memory and peak_memory
are uint64_t in the source; current_memory is the only counter that is
ever decremented, so it is modelled as Int to make underflow visible. -/
structure Statistics where
  total_allocations : Nat := 0
  total_frees : Nat := 0
  bytes_allocated : Nat := 0
  bytes_freed : Nat := 0
  peak_memory : Int := 0
  current_memory : Int := 0
  allocations_per_site : List (Nat × Nat) := []
  bytes_per_site : List (Nat × Nat) := []
  total_lifetime : Nat := 0
  max_lifetime : Nat := 0
  min_lifetime : Nat := 2 ^ 64 - 1
deriving DecidableEq

/-- map[k] += v on a per-site counter map. -/
def bumpSite (k : Nat) (v : Nat) (t : List (Nat × Nat)) : List (Nat × Nat) :=
  Tbl.tinsert k (Tbl.tlookupD k t 0 + v) t

def Statistics.record_allocation (s : Statistics) (size : Nat) (site_id : Nat) : Statistics :=
  let s := { s with
    total_allocations := s.total_allocations + 1
    bytes_allocated := s.bytes_allocated + size
    current_memory := s.current_memory + size }
  let s := if s.current_memory > s.peak_memory then { s with peak_memory := s.current_memory } else s
  { s with
    allocations_per_site := bumpSite site_id 1 s.allocations_per_site
    bytes_per_site := bumpSite site_id size s.bytes_per_site }

def Statistics.record_free (s : Statistics) (size : Nat) (lifetime : Nat) : Statistics :=
  let s := { s with
    total_frees := s.total_frees + 1
    bytes_freed := s.bytes_freed + size
    current_memory := s.current_memory - size
    total_lifetime := s.total_lifetime + lifetime }
  let s := if lifetime > s.max_lifetime then { s with max_lifetime := lifetime } else s
  if lifetime < s.min_lifetime then { s with min_lifetime := lifetime } else s

/-- Mutable state of class OracleReplayer: the live-object map, the FIFO
pending-free queue (head of the list = front of the queue), the
statistics, and the number of do_malloc calls made so far (the index
into the malloc-outcome oracle that models the host allocator). -/
structure OracleReplayerState where
  live_objects : List (Nat × AllocatedObject) := []
  pending_frees : List Event := []
  stats : Statistics := {}
  calls : Nat := 0
deriving DecidableEq

def initOracle : OracleReplayerState := {}

/-- One iteration of the while-loop body of execute_pending_frees, acting
on the front event of the queue (the queue itself is threaded
separately): unknown object ids are warned about and discarded, live
ones are freed, recorded (lifetime = free timestamp minus allocation
time) and removed from the live map. -/
def free_one (st : OracleReplayerState) (e : Event) : OracleReplayerState :=
  match Tbl.tlookup e.object_id st.live_objects with
  | none => st
  | some obj =>
      { st with
        live_objects := Tbl.terase e.object_id st.live_objects
        stats := st.stats.record_free obj.size (e.timestamp - obj.alloc_time) }

/-- execute_pending_frees: the while-loop pops the front element each
iteration and never pushes, so it is exactly a left fold over the queue
from front to back, finishing with an empty queue.  next_alloc_size is
only used by the verbose progress print in the source. -/
def OracleReplayerState.execute_pending_frees (st : OracleReplayerState) (next_alloc_size : Nat) :
    OracleReplayerState :=
  let _ := next_alloc_size
  { st.pending_frees.foldl free_one st with pending_frees := [] }

/-- process_allocation: drain the pending-free queue if non-empty, then
call do_malloc; on null do nothing further, otherwise insert the object
into the live map and record the allocation. -/
def process_allocation (f : Nat → Bool) (e : Event) (st : OracleReplayerState) :
    OracleReplayerState :=
  let st := if st.pending_frees.isEmpty then st else st.execute_pending_frees e.size
  let ok := f st.calls
  let st := { st with calls := st.calls + 1 }
  if ok then
    { st with
      live_objects :=
        Tbl.tinsert e.object_id ⟨e.size, e.timestamp, e.site_id⟩ st.live_objects
      stats := st.stats.record_allocation e.size e.site_id }
  else st

/-- process_free: queue the free for execution before the next
allocation (push to the back of the FIFO). -/
def process_free (e : Event) (st : OracleReplayerState) : OracleReplayerState :=
  { st with pending_frees := st.pending_frees ++ [e] }

/-- The dispatch of the replay loop body over one event. -/
def stepEvent (f : Nat → Bool) (st : OracleReplayerState) (e : Event) : OracleReplayerState :=
  if e.is_alloc then process_allocation f e st
  else if e.is_free then process_free e st
  else st

/-- The replay loop over a prefix of the event sequence (no end-of-trace
drain yet). -/
def runEvents (f : Nat → Bool) (evs : List Event) : OracleReplayerState :=
  evs.foldl (stepEvent f) initOracle

/-- replay(): the full loop followed by the end-of-trace drain of any
remaining pending frees, passed a next-allocation size of zero. -/
def replay (f : Nat → Bool) (evs : List Event) : OracleReplayerState :=
  let st := runEvents f evs
  if st.pending_frees.isEmpty then st else st.execute_pending_frees 0

/-- Sum of the sizes of the objects currently in the live-object table. -/
def liveBytes (t : List (Nat × AllocatedObject)) : Nat :=
  (t.map (fun p => p.2.size)).sum

/-- current_memory after each successive event of the list, starting from
state st (the trajectory of current-live-bytes over the prefixes). -/
def currentsAfter (f : Nat → Bool) : OracleReplayerState → List Event → List Int
  | _, [] => []
  | st, e :: es =>
      let st1 := stepEvent f st e
      st1.stats.current_memory :: currentsAfter f st1 es

/-- Checks that every Alloc event of the list targets an object id that is
absent from the live table at the moment the allocation is recorded
(i.e. after the pending-free drain that precedes it).  This is the
well-formedness condition under which the live-byte accounting is
exact; the pre-drain state is computed by the same expression
process_allocation uses. -/
def freshAllocs (f : Nat → Bool) : OracleReplayerState → List Event → Bool
  | _, [] => true
  | st, e :: es =>
      let pre := if st.pending_frees.isEmpty then st else st.execute_pending_frees e.size
      ((!e.is_alloc) || (Tbl.tlookup e.object_id pre.live_objects).isNone) &&
        freshAllocs f (stepEvent f st e) es

end oracle

namespace enhanced

/- Embedding of TraceReplayerEnhanced.cpp.  The AllocatorBackend is
modelled by a boolean oracle f : Nat → Bool giving the outcome (non-null
or null) of the n-th allocate(size) request; a successful request yields
the request index as its handle.  backend deallocate returns nothing and
is therefore not modelled as state. -/

open Tbl

/-- struct Statistics of TraceReplayerEnhanced.cpp.  currentMemoryUsage is
size_t in the source and the only counter ever decremented; it is
modelled as Int so underflow is visible.  totalGCTime accumulates
wall-clock microseconds and every modelled collection contributes 0. -/
structure Statistics where
  totalAllocations : Nat := 0
  totalDeallocations : Nat := 0
  totalBytesAllocated : Nat := 0
  totalBytesFreed : Nat := 0
  peakMemoryUsage : Int := 0
  currentMemoryUsage : Int := 0
  gcCollections : Nat := 0
  totalGCTime : Nat := 0
  fieldUpdates : Nat := 0
  methodCalls : Nat := 0
deriving DecidableEq

def Statistics.recordAllocation (s : Statistics) (size : Nat) : Statistics :=
  let s := { s with
    totalAllocations := s.totalAllocations + 1
    totalBytesAllocated := s.totalBytesAllocated + size
    currentMemoryUsage := s.currentMemoryUsage + size }
  if s.currentMemoryUsage > s.peakMemoryUsage then
    { s with peakMemoryUsage := s.currentMemoryUsage }
  else s

def Statistics.recordDeallocation (s : Statistics) (size : Nat) : Statistics :=
  { s with
    totalDeallocations := s.totalDeallocations + 1
    totalBytesFreed := s.totalBytesFreed + size
    currentMemoryUsage := s.currentMemoryUsage - size }

def Statistics.recordGC (s : Statistics) (gcTimeUs : Nat) : Statistics :=
  { s with
    gcCollections := s.gcCollections + 1
    totalGCTime := s.totalGCTime + gcTimeUs }

/-- State of class ExplicitMemoryManager: the allocations map (object id
to backend handle), the sizes map, the statistics inherited from
MemorySimulator, and the backend request counter. -/
structure ExplicitMemoryManager where
  allocations : List (Int × Nat) := []
  sizes : List (Int × Nat) := []
  stats : Statistics := {}
  calls : Nat := 0
deriving DecidableEq

/-- ExplicitMemoryManager::allocate: request memory; on null print an
error and return null with no entry created; otherwise memset (pure
memory traffic, not modelled), insert into both maps and record. -/
def ExplicitMemoryManager.allocate (f : Nat → Bool) (size : Nat) (objectId : Int)
    (st : ExplicitMemoryManager) : Option Nat × ExplicitMemoryManager :=
  let h := st.calls
  let ok := f h
  let st := { st with calls := st.calls + 1 }
  if ok then
    (some h,
      { st with
        allocations := tinsert objectId h st.allocations
        sizes := tinsert objectId size st.sizes
        stats := st.stats.recordAllocation size })
  else (none, st)

/-- ExplicitMemoryManager::deallocate: if the id is absent from the
allocations map nothing at all happens; otherwise touch memory (pure
traffic), release the handle, record sizes[objectId] freed, and erase
the id from both maps. -/
def ExplicitMemoryManager.deallocate (objectId : Int) (size : Nat)
    (st : ExplicitMemoryManager) : ExplicitMemoryManager :=
  let _ := size
  match tlookup objectId st.allocations with
  | none => st
  | some _ =>
      { st with
        stats := st.stats.recordDeallocation (tlookupD objectId st.sizes 0)
        allocations := terase objectId st.allocations
        sizes := terase objectId st.sizes }

/-- State of class GCSimulator: allocations/sizes maps, the dead set
(modelled as an insertion-ordered duplicate-free list; no property
proved below depends on its iteration order), the two collection
thresholds, the since-last-collection allocation counter, statistics
and the backend request counter.  Constructor defaults: 10 MiB byte
threshold and 1000-allocation count threshold. -/
structure GCSimulator where
  allocations : List (Int × Nat) := []
  sizes : List (Int × Nat) := []
  deadObjects : List Int := []
  gcThreshold : Nat := 10 * 1024 * 1024
  allocationsSinceLastGC : Nat := 0
  allocationThreshold : Nat := 1000
  stats : Statistics := {}
  calls : Nat := 0
deriving DecidableEq

/-- One iteration of the sweep loop of GCSimulator::performGC for a dead
id: ids absent from the allocations map are skipped entirely; live ones
are touched (pure traffic), released, recorded with sizes[deadId], and
erased from both maps. -/
def sweepOne (st : GCSimulator) (deadId : Int) : GCSimulator :=
  match tlookup deadId st.allocations with
  | none => st
  | some _ =>
      { st with
        stats := st.stats.recordDeallocation (tlookupD deadId st.sizes 0)
        allocations := terase deadId st.allocations
        sizes := terase deadId st.sizes }

/-- GCSimulator::performGC: sweep every id of the dead set, then clear the
dead set, reset the since-last-collection counter unconditionally, and
record the collection (wall-clock duration modelled as 0). -/
def GCSimulator.performGC (st : GCSimulator) : GCSimulator :=
  let st := st.deadObjects.foldl sweepOne st
  let st := { st with deadObjects := [], allocationsSinceLastGC := 0 }
  { st with stats := st.stats.recordGC 0 }

/-- The successful-allocation tail of GCSimulator::allocate: memset (pure
traffic), insert into both maps, record, bump the since-last-collection
counter, then check the OR-combined collection trigger. -/
def GCSimulator.allocFinish (size : Nat) (objectId : Int) (h : Nat) (st : GCSimulator) :
    Option Nat × GCSimulator :=
  let st := { st with
    allocations := tinsert objectId h st.allocations
    sizes := tinsert objectId size st.sizes
    stats := st.stats.recordAllocation size
    allocationsSinceLastGC := st.allocationsSinceLastGC + 1 }
  let st :=
    if st.stats.currentMemoryUsage > (st.gcThreshold : Int) ∨
        st.allocationsSinceLastGC > st.allocationThreshold then
      st.performGC
    else st
  (some h, st)

/-- GCSimulator::allocate: request memory; on null run one collection and
retry exactly once; if the retry is also null print an error and return
null with no entry created; otherwise proceed with the normal
insert/record/trigger-check tail. -/
def GCSimulator.allocate (f : Nat → Bool) (size : Nat) (objectId : Int)
    (st : GCSimulator) : Option Nat × GCSimulator :=
  let h1 := st.calls
  let ok1 := f h1
  let st := { st with calls := st.calls + 1 }
  if ok1 then GCSimulator.allocFinish size objectId h1 st
  else
    let st := st.performGC
    let h2 := st.calls
    let ok2 := f h2
    let st := { st with calls := st.calls + 1 }
    if ok2 then GCSimulator.allocFinish size objectId h2 st
    else (none, st)

/-- GCSimulator::deallocate: mark the object dead, never free here.  The
std::unordered_set insert is modelled as append-if-absent. -/
def GCSimulator.deallocate (objectId : Int) (size : Nat) (st : GCSimulator) : GCSimulator :=
  let _ := size
  { st with
    deadObjects := if objectId ∈ st.deadObjects then st.deadObjects
                   else st.deadObjects ++ [objectId] }

/-- GCSimulator::finalGC: mark every object still in the allocations map
dead, then run one ordinary collection. -/
def GCSimulator.finalGC (st : GCSimulator) : GCSimulator :=
  let st := st.allocations.foldl (fun st p => st.deallocate p.1 0) st
  st.performGC

/-- Replay operations used to drive a GCSimulator through an alloc/death
event sequence the way TraceReplayer dispatches them (a death event of
a tracked object calls deallocate with its recorded size). -/
inductive TraceOp where
  | alloc (objectId : Int) (size : Nat)
  | death (objectId : Int)
deriving DecidableEq

def runGCOps (f : Nat → Bool) : GCSimulator → List TraceOp → GCSimulator
  | st, [] => st
  | st, .alloc objectId size :: rest => runGCOps f (GCSimulator.allocate f size objectId st).2 rest
  | st, .death objectId :: rest =>
      runGCOps f (st.deallocate objectId (tlookupD objectId st.sizes 0)) rest

/-- struct AllocationRecord of the TraceReplayer driver.  address models
the void* returned by the manager (none = nullptr); the wall-clock
allocTime field is not modelled. -/
structure AllocationRecord where
  objectId : Int
  size : Nat
  typeId : Int
  siteId : Int
  length : Int
  threadId : Int
  address : Option Nat
  isArray : Bool
deriving DecidableEq

/-- State of class TraceReplayer (driving an ExplicitMemoryManager): its
own liveObjects record map plus the manager. -/
structure TraceReplayerSt where
  liveObjects : List (Int × AllocationRecord) := []
  mm : ExplicitMemoryManager := {}
deriving DecidableEq

/-- TraceReplayer::handleObjectAllocation: ask the manager to allocate,
then unconditionally record the object - including a null address when
the manager failed - in the liveObjects map. -/
def handleObjectAllocation (f : Nat → Bool) (objectId : Int) (size : Nat)
    (typeId siteId length threadId : Int) (isArray : Bool)
    (st : TraceReplayerSt) : TraceReplayerSt :=
  let res := st.mm.allocate f size objectId
  let r : AllocationRecord :=
    { objectId := objectId, size := size, typeId := typeId, siteId := siteId
      length := length, threadId := threadId, address := res.1, isArray := isArray }
  { liveObjects := tinsert objectId r st.liveObjects, mm := res.2 }

/-- TraceReplayer::handleObjectDeath: only objects present in the
liveObjects record map are passed on to the manager. -/
def handleObjectDeath (objectId : Int) (st : TraceReplayerSt) : TraceReplayerSt :=
  match tlookup objectId st.liveObjects with
  | none => st
  | some r =>
      { liveObjects := terase objectId st.liveObjects
        mm := st.mm.deallocate objectId r.size }

end enhanced

namespace creplay

/- Embedding of TraceReplayer.c.  The bucketed hash table is modelled as
one list of (object_id, size) entries, newest first: find_allocation
compares full object ids inside a bucket, insert_allocation prepends to
the bucket chain and remove_allocation removes the first full-id match,
so bucketing is unobservable and the single newest-first list has the
same find/insert/remove behaviour.  Duplicate ids are possible, exactly
as in the C table.  malloc outcomes are a Bool parameter; the stored
void* is not otherwise observable and is dropped.  current_bytes is the
one counter the source decrements and is modelled as Int. -/

/-- struct AllocatorStats together with its hash table. -/
structure AllocatorStats where
  table : List (Int × Nat) := []
  total_allocations : Nat := 0
  total_frees : Nat := 0
  total_bytes_allocated : Nat := 0
  total_bytes_freed : Nat := 0
  current_bytes : Int := 0
  peak_bytes : Int := 0
  live_objects : Nat := 0
  failed_allocations : Nat := 0
  failed_frees : Nat := 0
deriving DecidableEq

/-- find_allocation: first (most recently inserted) entry with the id. -/
def cfind (object_id : Int) : List (Int × Nat) → Option Nat
  | [] => none
  | (k, sz) :: rest => if k = object_id then some sz else cfind object_id rest

/-- remove_allocation: unlink the first entry with the id. -/
def cremove (object_id : Int) : List (Int × Nat) → List (Int × Nat)
  | [] => []
  | (k, sz) :: rest => if k = object_id then rest else (k, sz) :: cremove object_id rest

/-- handle_alloc: on malloc failure count it and return; otherwise touch
memory (pure traffic), insert, update the counters and the peak. -/
def handle_alloc (ok : Bool) (st : AllocatorStats) (object_id : Int) (size : Nat) :
    AllocatorStats :=
  if !ok then { st with failed_allocations := st.failed_allocations + 1 }
  else
    let st := { st with
      table := (object_id, size) :: st.table
      total_allocations := st.total_allocations + 1
      total_bytes_allocated := st.total_bytes_allocated + size
      current_bytes := st.current_bytes + size
      live_objects := st.live_objects + 1 }
    if st.current_bytes > st.peak_bytes then { st with peak_bytes := st.current_bytes } else st

/-- handle_free: an id absent from the table only bumps failed_frees
(silent fail); otherwise free, update the counters and unlink. -/
def handle_free (st : AllocatorStats) (object_id : Int) : AllocatorStats :=
  match cfind object_id st.table with
  | none => { st with failed_frees := st.failed_frees + 1 }
  | some size =>
      { st with
        total_frees := st.total_frees + 1
        total_bytes_freed := st.total_bytes_freed + size
        current_bytes := st.current_bytes - size
        live_objects := st.live_objects - 1
        table := cremove object_id st.table }

end creplay

namespace parsing

/- Character-level models of the numeric conversions and field splitting
used by the two CSV parsers.  They operate on List Char (String.data)
so that every definition reduces structurally. -/

/-- Value of a digit string (most significant first). -/
def digitsToNat (ds : List Char) : Nat :=
  ds.foldl (fun acc c => acc * 10 + (c.toNat - Char.toNat (Char.ofNat 48))) 0

def isSpaceChar (c : Char) : Bool := c = Char.ofNat 32 || c = Char.ofNat 9

def isDigitChar (c : Char) : Bool := c.isDigit

/-- std::stoull (base 10): skip leading whitespace, allow one sign, then
require at least one digit - otherwise it throws std::invalid_argument;
a value beyond ULLONG_MAX throws std::out_of_range.  Both throws are
uncaught in OracleReplayer.cpp, so the model returns none for them; a
minus sign negates modulo 2^64 without throwing. -/
def stoullChars (cs : List Char) : Option Nat :=
  let cs := cs.dropWhile isSpaceChar
  let (neg, cs) :=
    match cs with
    | c :: rest =>
        if c = Char.ofNat 43 then (false, rest)
        else if c = Char.ofNat 45 then (true, rest)
        else (false, c :: rest)
    | [] => (false, [])
  let ds := cs.takeWhile isDigitChar
  if ds.isEmpty then none
  else
    let v := digitsToNat ds
    if v ≥ 2 ^ 64 then none
    else some (if neg then (2 ^ 64 - v) % 2 ^ 64 else v)

/-- C atoi / atol: skip whitespace, optional sign, digits; no digits means
value 0, never an error. -/
def atoiChars (cs : List Char) : Int :=
  let cs := cs.dropWhile isSpaceChar
  let (neg, cs) :=
    match cs with
    | c :: rest =>
        if c = Char.ofNat 43 then (false, rest)
        else if c = Char.ofNat 45 then (true, rest)
        else (false, c :: rest)
    | [] => (false, [])
  let v : Int := digitsToNat (cs.takeWhile isDigitChar)
  if neg then -v else v

/-- All comma-separated fields of a character list (empty fields kept). -/
def splitFields : List Char → List (List Char)
  | [] => [[]]
  | c :: rest =>
      let r := splitFields rest
      if c = Char.ofNat 44 then [] :: r
      else
        match r with
        | fld :: flds => (c :: fld) :: flds
        | [] => [[c]]

/-- The sequence of fields produced by repeated std::getline(iss, field,
comma) on the line: identical to splitFields except that when the line
ends in a delimiter (or is empty) the final getline extracts nothing
and fails, so a trailing empty field is not produced. -/
def getlineFields (cs : List Char) : List (List Char) :=
  let fs := splitFields cs
  match fs.getLast? with
  | some [] => fs.dropLast
  | _ => fs

end parsing

namespace oracle

open parsing

/-- Outcome of OracleReplayer::parse_event on one line: ok (returns true
with the filled event), failed (returns false: caller drops the line
and continues), or crash (an uncaught std::stoull exception propagates
out of parse_event and terminates the process). -/
inductive ParseOutcome where
  | crash
  | failed
  | ok (e : Event)
deriving DecidableEq

/-- OracleReplayer::parse_event: seven getline/std::stoull steps in source
order - a missing field returns false, a field std::stoull rejects
throws (crash) before any later field is examined. -/
def parse_event (line : String) : ParseOutcome :=
  match getlineFields line.data with
  | [] => .failed
  | f0 :: r0 =>
    match stoullChars f0 with
    | none => .crash
    | some ts =>
      match r0 with
      | [] => .failed
      | f1 :: r1 =>
        match r1 with
        | [] => .failed
        | f2 :: r2 =>
          match stoullChars f2 with
          | none => .crash
          | some oid =>
            match r2 with
            | [] => .failed
            | f3 :: r3 =>
              match stoullChars f3 with
              | none => .crash
              | some sz =>
                match r3 with
                | [] => .failed
                | f4 :: r4 =>
                  match stoullChars f4 with
                  | none => .crash
                  | some site =>
                    match r4 with
                    | [] => .failed
                    | f5 :: r5 =>
                      match stoullChars f5 with
                      | none => .crash
                      | some tid =>
                        match r5 with
                        | [] => .failed
                        | f6 :: _ =>
                          match stoullChars f6 with
                          | none => .crash
                          | some typ =>
                            .ok { timestamp := ts, event_type := f1, object_id := oid
                                  size := sz, site_id := site, thread_id := tid
                                  type_id := typ }

/-- Result of the load_oracle ingestion loop: either the process died on
an uncaught parse exception, or the list of successfully parsed events
in input order. -/
inductive LoadResult where
  | crashed
  | loaded (events : List Event)
deriving DecidableEq

/-- The body of the load_oracle read loop after the header was skipped:
empty lines are skipped, lines parse_event rejects are dropped, events
are appended in input order, and a parse crash kills the process. -/
def load_lines : List String → LoadResult
  | [] => .loaded []
  | line :: rest =>
      if line.data.isEmpty then load_lines rest
      else
        match parse_event line with
        | .crash => .crashed
        | .failed => load_lines rest
        | .ok e =>
            match load_lines rest with
            | .crashed => .crashed
            | .loaded evs => .loaded (e :: evs)

/-- load_oracle up to (not including) the std::sort call: the first line
of the file is discarded unconditionally - the header_skipped flag is
positional, nothing about the content of the first line is examined -
and the remaining lines feed the read loop. -/
def load_oracle_events : List String → LoadResult
  | [] => .loaded []
  | _ :: rest => load_lines rest

/-- Timestamp order used by the std::sort comparator of load_oracle (the
comparator is strict less-than; a correct sort with it yields a
sequence nondecreasing in this relation). -/
def tsLe (a b : Event) : Prop := a.timestamp ≤ b.timestamp

/-- The post-condition std::sort guarantees for the events vector: the
result is some permutation of the input that is nondecreasing in the
comparator.  std::sort promises nothing else - in particular not
stability - so ingestion is modelled by this relation rather than by
one concrete output order. -/
def isSortOutcome (input out : List Event) : Prop :=
  input.Perm out ∧ out.Pairwise tsLe

end oracle

namespace creplay

open parsing

/-- strtok(line, comma) repeatedly: strtok treats runs of delimiters as
one, so empty fields disappear. -/
def ctokens (cs : List Char) : List (List Char) :=
  (splitFields cs).filter (fun fld => !fld.isEmpty)

/-- Whether pat occurs as a contiguous substring (strstr). -/
def containsChars (pat : List Char) : List Char → Bool
  | [] => pat.isEmpty
  | c :: rest => pat.isPrefixOf (c :: rest) || containsChars pat rest

/-- parse_csv_line of TraceReplayer.c: any line containing "timestamp" is
treated as the header and skipped; then the first four strtok tokens
are timestamp (unused), event_type, object_id (atoi) and size (atol) -
a missing token drops the line; unknown event types are ignored.  atoi
returns 0 for non-numeric text, so such a line still produces an event
rather than being dropped.  A negative atol size would convert to a
huge size_t; no claim exercises that, and the model truncates negative
sizes to 0 via Int.toNat. -/
def parse_csv_line (ok : Bool) (line : String) (st : AllocatorStats) : AllocatorStats :=
  if containsChars "timestamp".data line.data then st
  else
    match ctokens line.data with
    | _ts :: ty :: oid :: sz :: _ =>
        let object_id := atoiChars oid
        let size := (atoiChars sz).toNat
        if ty = "alloc".data then handle_alloc ok st object_id size
        else if ty = "free".data then handle_free st object_id
        else st
    | _ => st

end creplay

namespace oracle

instance : DecidableRel tsLe :=
  fun a b => inferInstanceAs (Decidable (a.timestamp ≤ b.timestamp))

instance : IsTotal Event tsLe := ⟨fun a b => Nat.le_total a.timestamp b.timestamp⟩

instance : IsTrans Event tsLe := ⟨fun _ _ _ => Nat.le_trans⟩

end oracle

namespace fixtures

/- Concrete inputs used to instantiate the theorems below. -/

def alwaysOk : Nat → Bool := fun _ => true

def neverOk : Nat → Bool := fun _ => false

def okFromSecond : Nat → Bool := fun n => n != 0

def evAlloc1 : oracle.Event := ⟨0, "alloc".data, 1, 10, 3, 0, 0⟩

def evAlloc1b : oracle.Event := ⟨1, "alloc".data, 1, 20, 3, 0, 0⟩

def evFree1 : oracle.Event := ⟨2, "free".data, 1, 0, 0, 0, 0⟩

def evAlloc2 : oracle.Event := ⟨3, "alloc".data, 2, 7, 4, 0, 0⟩

def evT5a : oracle.Event := ⟨5, "alloc".data, 1, 8, 0, 0, 0⟩

def evT5b : oracle.Event := ⟨5, "alloc".data, 2, 8, 0, 0, 0⟩

def evT3 : oracle.Event := ⟨3, "alloc".data, 2, 8, 1, 0, 0⟩

def unsortedLines : List String :=
  ["timestamp,event_type,object_id,size,site_id,thread_id,type_id",
   "5,alloc,1,8,0,0,0",
   "3,alloc,2,8,1,0,0"]

def gcCount2 : enhanced.GCSimulator := { allocationThreshold := 2 }

def gcScenarioOps : List enhanced.TraceOp :=
  [.alloc 1 16, .death 1, .alloc 2 16, .death 2, .alloc 3 16]

def gcEmpty : enhanced.GCSimulator := {}

def emEmpty : enhanced.ExplicitMemoryManager := {}

def trEmpty : enhanced.TraceReplayerSt := {}

def csEmpty : creplay.AllocatorStats := {}

end fixtures

/- ===================== helper lemmas: tables ===================== -/

namespace Tbl

variable {K V : Type} [DecidableEq K]

theorem tlookup_none_iff (k : K) (t : List (K × V)) :
    tlookup k t = none ↔ k ∉ t.map Prod.fst := by
  induction t with
  | nil => simp [tlookup]
  | cons p rest ih =>
      obtain ⟨k1, v⟩ := p
      simp only [tlookup, List.map_cons, List.mem_cons, not_or]
      by_cases h : k1 = k
      · subst h
        simp
      · rw [if_neg h, ih]
        exact ⟨fun hn => ⟨fun hk => h hk.symm, hn⟩, fun hn => hn.2⟩

theorem terase_of_not_mem (k : K) (t : List (K × V)) (h : k ∉ t.map Prod.fst) :
    terase k t = t := by
  apply List.filter_eq_self.mpr
  intro p hp
  simp only [ne_eq, decide_eq_true_eq]
  rintro rfl
  exact h (List.mem_map_of_mem _ hp)

theorem tlookup_filter_none (k : K) (p : K × V → Bool) (t : List (K × V))
    (h : tlookup k t = none) : tlookup k (t.filter p) = none := by
  rw [tlookup_none_iff] at h ⊢
  intro hm
  obtain ⟨q, hq, hk⟩ := List.mem_map.mp hm
  exact h (hk ▸ List.mem_map_of_mem _ (List.mem_of_mem_filter hq))

theorem tlookup_terase_none (k k2 : K) (t : List (K × V)) (h : tlookup k t = none) :
    tlookup k (terase k2 t) = none :=
  tlookup_filter_none k _ t h

theorem keysNodup_terase (k : K) (t : List (K × V)) (h : keysNodup t) :
    keysNodup (terase k t) :=
  List.Nodup.sublist (List.Sublist.map Prod.fst (List.filter_sublist t)) h

theorem not_mem_keys_terase (k : K) (t : List (K × V)) :
    k ∉ (terase k t).map Prod.fst := by
  intro hm
  obtain ⟨q, hq, hk⟩ := List.mem_map.mp hm
  have h2 := (List.mem_filter.mp hq).2
  simp only [ne_eq, decide_eq_true_eq] at h2
  exact h2 hk

theorem keysNodup_tinsert (k : K) (v : V) (t : List (K × V)) (h : keysNodup t) :
    keysNodup (tinsert k v t) := by
  unfold tinsert keysNodup
  simp only [List.map_cons]
  exact List.nodup_cons.mpr ⟨not_mem_keys_terase k t, keysNodup_terase k t h⟩

theorem tlookup_eq_none_of_not_mem (k : K) (t : List (K × V)) (h : k ∉ t.map Prod.fst) :
    tlookup k t = none :=
  (tlookup_none_iff k t).mpr h

end Tbl

namespace Tbl

variable {K V : Type} [DecidableEq K]

theorem terase_cons (k : K) (p : K × V) (t : List (K × V)) :
    terase k (p :: t) = if p.1 = k then terase k t else p :: terase k t := by
  unfold terase
  rw [List.filter_cons]
  by_cases h : p.1 = k <;> simp [h]

theorem terase_cons_self (k : K) (v : V) (t : List (K × V)) :
    terase k ((k, v) :: t) = terase k t := by
  rw [terase_cons, if_pos rfl]

theorem terase_cons_ne (k k1 : K) (v : V) (t : List (K × V)) (h : k1 ≠ k) :
    terase k ((k1, v) :: t) = (k1, v) :: terase k t := by
  rw [terase_cons, if_neg h]

end Tbl

/- ===================== helper lemmas: oracle model ===================== -/

namespace oracle

open Tbl

theorem liveBytes_cons (p : Nat × AllocatedObject) (t : List (Nat × AllocatedObject)) :
    liveBytes (p :: t) = p.2.size + liveBytes t := by
  simp [liveBytes]

theorem liveBytes_tinsert (k : Nat) (v : AllocatedObject) (t : List (Nat × AllocatedObject)) :
    liveBytes (tinsert k v t) = v.size + liveBytes (terase k t) := by
  simp [liveBytes, tinsert]

theorem liveBytes_terase_le (k : Nat) (t : List (Nat × AllocatedObject)) :
    liveBytes (terase k t) ≤ liveBytes t :=
  List.Sublist.sum_le_sum
    (List.Sublist.map (fun p => p.2.size) (List.filter_sublist t))
    (fun a _ => Nat.zero_le a)

theorem liveBytes_terase_add (k : Nat) (t : List (Nat × AllocatedObject))
    (v : AllocatedObject) (hn : keysNodup t) (hl : tlookup k t = some v) :
    liveBytes t = liveBytes (terase k t) + v.size := by
  induction t with
  | nil => cases hl
  | cons p rest ih =>
      obtain ⟨k1, v1⟩ := p
      unfold keysNodup at hn
      rw [List.map_cons, List.nodup_cons] at hn
      by_cases h : k1 = k
      · subst h
        have hv : v1 = v := by
          simp [tlookup] at hl
          exact hl
        subst hv
        rw [terase_cons_self, terase_of_not_mem _ _ hn.1, liveBytes_cons, Nat.add_comm]
      · simp only [tlookup, if_neg h] at hl
        rw [terase_cons_ne _ _ _ _ h, liveBytes_cons, liveBytes_cons, ih hn.2 hl,
          Nat.add_assoc]

theorem record_free_current (s : Statistics) (size lifetime : Nat) :
    (s.record_free size lifetime).current_memory = s.current_memory - size := by
  simp only [Statistics.record_free]
  split <;> split <;> rfl

theorem record_free_peak (s : Statistics) (size lifetime : Nat) :
    (s.record_free size lifetime).peak_memory = s.peak_memory := by
  simp only [Statistics.record_free]
  split <;> split <;> rfl

theorem record_allocation_current (s : Statistics) (size site : Nat) :
    (s.record_allocation size site).current_memory = s.current_memory + size := by
  simp only [Statistics.record_allocation]
  split <;> rfl

theorem record_allocation_peak (s : Statistics) (size site : Nat) :
    (s.record_allocation size site).peak_memory = max s.peak_memory (s.current_memory + size) := by
  simp only [Statistics.record_allocation]
  split
  · next h => exact (max_eq_right (le_of_lt h)).symm
  · next h => exact (max_eq_left (le_of_not_lt h)).symm

theorem free_one_facts (st : OracleReplayerState) (e : Event) (hn : keysNodup st.live_objects) :
    keysNodup (free_one st e).live_objects ∧
    (free_one st e).stats.peak_memory = st.stats.peak_memory ∧
    (free_one st e).stats.current_memory ≤ st.stats.current_memory ∧
    ((liveBytes st.live_objects : Int) ≤ st.stats.current_memory →
      (liveBytes (free_one st e).live_objects : Int) ≤ (free_one st e).stats.current_memory) ∧
    ((liveBytes st.live_objects : Int) = st.stats.current_memory →
      (liveBytes (free_one st e).live_objects : Int) = (free_one st e).stats.current_memory) ∧
    (free_one st e).pending_frees = st.pending_frees ∧
    (free_one st e).calls = st.calls := by
  cases hl : tlookup e.object_id st.live_objects with
  | none =>
      have hfo : free_one st e = st := by
        unfold free_one
        rw [hl]
      rw [hfo]
      exact ⟨hn, rfl, le_refl _, fun h => h, fun h => h, rfl, rfl⟩
  | some obj =>
      have hfo : free_one st e = { st with
          live_objects := terase e.object_id st.live_objects
          stats := st.stats.record_free obj.size (e.timestamp - obj.alloc_time) } := by
        unfold free_one
        rw [hl]
      rw [hfo]
      dsimp only
      have hadd := liveBytes_terase_add e.object_id st.live_objects obj hn hl
      have hcur := record_free_current st.stats obj.size (e.timestamp - obj.alloc_time)
      have hpk := record_free_peak st.stats obj.size (e.timestamp - obj.alloc_time)
      refine ⟨keysNodup_terase _ _ hn, hpk, ?_, ?_, ?_, rfl, rfl⟩
      · rw [hcur]
        have : (0 : Int) ≤ (obj.size : Int) := Int.natCast_nonneg _
        omega
      · intro h
        rw [hcur]
        have hc : (liveBytes st.live_objects : Int)
            = (liveBytes (terase e.object_id st.live_objects) : Int) + (obj.size : Int) := by
          rw [hadd]; push_cast; ring
        omega
      · intro h
        rw [hcur]
        have hc : (liveBytes st.live_objects : Int)
            = (liveBytes (terase e.object_id st.live_objects) : Int) + (obj.size : Int) := by
          rw [hadd]; push_cast; ring
        omega

theorem drain_facts (l : List Event) : ∀ st : OracleReplayerState,
    keysNodup st.live_objects →
    keysNodup (l.foldl free_one st).live_objects ∧
    (l.foldl free_one st).stats.peak_memory = st.stats.peak_memory ∧
    (l.foldl free_one st).stats.current_memory ≤ st.stats.current_memory ∧
    ((liveBytes st.live_objects : Int) ≤ st.stats.current_memory →
      (liveBytes (l.foldl free_one st).live_objects : Int)
        ≤ (l.foldl free_one st).stats.current_memory) ∧
    ((liveBytes st.live_objects : Int) = st.stats.current_memory →
      (liveBytes (l.foldl free_one st).live_objects : Int)
        = (l.foldl free_one st).stats.current_memory) ∧
    (l.foldl free_one st).pending_frees = st.pending_frees ∧
    (l.foldl free_one st).calls = st.calls := by
  induction l with
  | nil =>
      intro st hn
      exact ⟨hn, rfl, le_refl _, fun h => h, fun h => h, rfl, rfl⟩
  | cons e rest ih =>
      intro st hn
      obtain ⟨n1, pk1, c1, le1, eq1, pf1, cl1⟩ := free_one_facts st e hn
      obtain ⟨n2, pk2, c2, le2, eq2, pf2, cl2⟩ := ih (free_one st e) n1
      rw [List.foldl_cons]
      exact ⟨n2, pk2.trans pk1, c2.trans c1, fun h => le2 (le1 h), fun h => eq2 (eq1 h),
        pf2.trans pf1, cl2.trans cl1⟩

theorem exec_facts (st : OracleReplayerState) (sz : Nat) (hn : keysNodup st.live_objects) :
    keysNodup (st.execute_pending_frees sz).live_objects ∧
    (st.execute_pending_frees sz).stats.peak_memory = st.stats.peak_memory ∧
    (st.execute_pending_frees sz).stats.current_memory ≤ st.stats.current_memory ∧
    ((liveBytes st.live_objects : Int) ≤ st.stats.current_memory →
      (liveBytes (st.execute_pending_frees sz).live_objects : Int)
        ≤ (st.execute_pending_frees sz).stats.current_memory) ∧
    ((liveBytes st.live_objects : Int) = st.stats.current_memory →
      (liveBytes (st.execute_pending_frees sz).live_objects : Int)
        = (st.execute_pending_frees sz).stats.current_memory) ∧
    (st.execute_pending_frees sz).pending_frees = [] ∧
    (st.execute_pending_frees sz).calls = st.calls := by
  obtain ⟨n1, pk1, c1, le1, eq1, pf1, cl1⟩ := drain_facts st.pending_frees st hn
  unfold OracleReplayerState.execute_pending_frees
  exact ⟨n1, pk1, c1, le1, eq1, rfl, cl1⟩

/-- The pre-drain step of process_allocation. -/
theorem preDrain_facts (st : OracleReplayerState) (sz : Nat) (hn : keysNodup st.live_objects) :
    keysNodup (if st.pending_frees.isEmpty then st
        else st.execute_pending_frees sz).live_objects ∧
    (if st.pending_frees.isEmpty then st
        else st.execute_pending_frees sz).stats.peak_memory = st.stats.peak_memory ∧
    (if st.pending_frees.isEmpty then st
        else st.execute_pending_frees sz).stats.current_memory ≤ st.stats.current_memory ∧
    ((liveBytes st.live_objects : Int) ≤ st.stats.current_memory →
      (liveBytes (if st.pending_frees.isEmpty then st
          else st.execute_pending_frees sz).live_objects : Int)
        ≤ (if st.pending_frees.isEmpty then st
          else st.execute_pending_frees sz).stats.current_memory) ∧
    ((liveBytes st.live_objects : Int) = st.stats.current_memory →
      (liveBytes (if st.pending_frees.isEmpty then st
          else st.execute_pending_frees sz).live_objects : Int)
        = (if st.pending_frees.isEmpty then st
          else st.execute_pending_frees sz).stats.current_memory) ∧
    (if st.pending_frees.isEmpty then st
        else st.execute_pending_frees sz).pending_frees = [] ∧
    (if st.pending_frees.isEmpty then st
        else st.execute_pending_frees sz).calls = st.calls := by
  by_cases hp : st.pending_frees.isEmpty
  · rw [if_pos hp]
    have : st.pending_frees = [] := by
      cases hq : st.pending_frees
      · rfl
      · rw [hq] at hp
        cases hp
    exact ⟨hn, rfl, le_refl _, fun h => h, fun h => h, this, rfl⟩
  · rw [if_neg hp]
    exact exec_facts st sz hn

theorem process_allocation_eq (f : Nat → Bool) (e : Event) (st : OracleReplayerState) :
    process_allocation f e st =
      (let st1 := if st.pending_frees.isEmpty then st else st.execute_pending_frees e.size
       if f st1.calls then
        { st1 with
          calls := st1.calls + 1
          live_objects := Tbl.tinsert e.object_id ⟨e.size, e.timestamp, e.site_id⟩ st1.live_objects
          stats := st1.stats.record_allocation e.size e.site_id }
       else { st1 with calls := st1.calls + 1 }) := rfl

theorem stepEvent_facts (f : Nat → Bool) (st : OracleReplayerState) (e : Event)
    (hn : keysNodup st.live_objects) :
    keysNodup (stepEvent f st e).live_objects ∧
    ((liveBytes st.live_objects : Int) ≤ st.stats.current_memory →
      (liveBytes (stepEvent f st e).live_objects : Int)
        ≤ (stepEvent f st e).stats.current_memory) ∧
    (st.stats.current_memory ≤ st.stats.peak_memory →
      (stepEvent f st e).stats.peak_memory
        = max st.stats.peak_memory (stepEvent f st e).stats.current_memory ∧
      (stepEvent f st e).stats.current_memory ≤ (stepEvent f st e).stats.peak_memory) := by
  unfold stepEvent
  by_cases ha : e.is_alloc
  · rw [if_pos ha, process_allocation_eq]
    obtain ⟨n1, pk1, c1, le1, eq1, pf1, cl1⟩ := preDrain_facts st e.size hn
    set st1 := if st.pending_frees.isEmpty then st else st.execute_pending_frees e.size with hst1
    by_cases hok : f st1.calls
    · rw [if_pos hok]
      refine ⟨keysNodup_tinsert _ _ _ n1, ?_, ?_⟩
      · intro h
        have h1 := le1 h
        have h2 : liveBytes (Tbl.terase e.object_id st1.live_objects) ≤ liveBytes st1.live_objects :=
          liveBytes_terase_le _ _
        rw [liveBytes_tinsert, record_allocation_current]
        push_cast
        omega
      · intro h
        rw [record_allocation_current, record_allocation_peak, pk1]
        exact ⟨rfl, le_max_right _ _⟩
    · rw [if_neg hok]
      refine ⟨n1, le1, ?_⟩
      intro h
      rw [pk1]
      have hc : st1.stats.current_memory ≤ st.stats.peak_memory := le_trans c1 h
      exact ⟨(max_eq_left hc).symm, hc⟩
  · rw [if_neg ha]
    by_cases hf : e.is_free
    · rw [if_pos hf]
      refine ⟨hn, fun h => h, fun h => ⟨(max_eq_left h).symm, h⟩⟩
    · rw [if_neg hf]
      exact ⟨hn, fun h => h, fun h => ⟨(max_eq_left h).symm, h⟩⟩

theorem fold_inv (f : Nat → Bool) (evs : List Event) : ∀ st : OracleReplayerState,
    keysNodup st.live_objects →
    (liveBytes st.live_objects : Int) ≤ st.stats.current_memory →
    st.stats.current_memory ≤ st.stats.peak_memory →
    keysNodup (evs.foldl (stepEvent f) st).live_objects ∧
    (liveBytes (evs.foldl (stepEvent f) st).live_objects : Int)
      ≤ (evs.foldl (stepEvent f) st).stats.current_memory ∧
    (evs.foldl (stepEvent f) st).stats.current_memory
      ≤ (evs.foldl (stepEvent f) st).stats.peak_memory := by
  induction evs with
  | nil =>
      intro st h1 h2 h3
      exact ⟨h1, h2, h3⟩
  | cons e rest ih =>
      intro st h1 h2 h3
      obtain ⟨n1, le1, pk1⟩ := stepEvent_facts f st e h1
      obtain ⟨_, hp2⟩ := pk1 h3
      rw [List.foldl_cons]
      exact ih (stepEvent f st e) n1 (le1 h2) hp2

theorem peak_fold (f : Nat → Bool) (evs : List Event) : ∀ st : OracleReplayerState,
    keysNodup st.live_objects →
    st.stats.current_memory ≤ st.stats.peak_memory →
    (evs.foldl (stepEvent f) st).stats.peak_memory
      = (currentsAfter f st evs).foldl max st.stats.peak_memory := by
  induction evs with
  | nil =>
      intro st _ _
      rfl
  | cons e rest ih =>
      intro st h1 h2
      obtain ⟨n1, _, pk1⟩ := stepEvent_facts f st e h1
      obtain ⟨hp1, hp2⟩ := pk1 h2
      rw [List.foldl_cons]
      show _ = List.foldl max st.stats.peak_memory
        ((stepEvent f st e).stats.current_memory :: currentsAfter f (stepEvent f st e) rest)
      rw [List.foldl_cons, ih (stepEvent f st e) n1 hp2, hp1]

theorem fold_eq_of_fresh (f : Nat → Bool) (evs : List Event) : ∀ st : OracleReplayerState,
    keysNodup st.live_objects →
    (liveBytes st.live_objects : Int) = st.stats.current_memory →
    freshAllocs f st evs = true →
    keysNodup (evs.foldl (stepEvent f) st).live_objects ∧
    (liveBytes (evs.foldl (stepEvent f) st).live_objects : Int)
      = (evs.foldl (stepEvent f) st).stats.current_memory := by
  induction evs with
  | nil =>
      intro st h1 h2 _
      exact ⟨h1, h2⟩
  | cons e rest ih =>
      intro st h1 h2 hf
      unfold freshAllocs at hf
      rw [Bool.and_eq_true] at hf
      obtain ⟨hcond, hrest⟩ := hf
      rw [List.foldl_cons]
      have hstep : keysNodup (stepEvent f st e).live_objects ∧
          (liveBytes (stepEvent f st e).live_objects : Int)
            = (stepEvent f st e).stats.current_memory := by
        by_cases ha : e.is_alloc
        · have hnone : Tbl.tlookup e.object_id
              (if st.pending_frees.isEmpty then st
               else st.execute_pending_frees e.size).live_objects = none := by
            simp only [ha, Bool.not_true, Bool.false_or] at hcond
            exact Option.isNone_iff_eq_none.mp hcond
          obtain ⟨n1, pk1, c1, le1, eq1, pf1, cl1⟩ := preDrain_facts st e.size h1
          unfold stepEvent
          rw [if_pos ha, process_allocation_eq]
          set st1 := if st.pending_frees.isEmpty then st
            else st.execute_pending_frees e.size with hst1
          by_cases hok : f st1.calls
          · rw [if_pos hok]
            constructor
            · exact keysNodup_tinsert _ _ _ n1
            · have heq := eq1 h2
              have hterase : Tbl.terase e.object_id st1.live_objects = st1.live_objects :=
                Tbl.terase_of_not_mem _ _ ((Tbl.tlookup_none_iff _ _).mp hnone)
              rw [liveBytes_tinsert, record_allocation_current, hterase]
              push_cast
              omega
          · rw [if_neg hok]
            exact ⟨n1, eq1 h2⟩
        · unfold stepEvent
          rw [if_neg ha]
          by_cases hfr : e.is_free
          · rw [if_pos hfr]
            exact ⟨h1, h2⟩
          · rw [if_neg hfr]
            exact ⟨h1, h2⟩
      exact ih (stepEvent f st e) hstep.1 hstep.2 hrest

theorem pending_after_preDrain (st : OracleReplayerState) (sz : Nat) :
    (if st.pending_frees.isEmpty then st
     else st.execute_pending_frees sz).pending_frees = [] := by
  by_cases hp : st.pending_frees.isEmpty
  · rw [if_pos hp]
    cases hq : st.pending_frees with
    | nil => rfl
    | cons a l =>
        rw [hq] at hp
        simp at hp
  · rw [if_neg hp]
    rfl

theorem stepEvent_alloc_pending (f : Nat → Bool) (st : OracleReplayerState) (e : Event)
    (h : e.is_alloc = true) : (stepEvent f st e).pending_frees = [] := by
  unfold stepEvent
  rw [if_pos h, process_allocation_eq]
  set st1 := if st.pending_frees.isEmpty then st else st.execute_pending_frees e.size with hst1
  have hp : st1.pending_frees = [] := pending_after_preDrain st e.size
  by_cases hok : f st1.calls
  · rw [if_pos hok]
    exact hp
  · rw [if_neg hok]
    exact hp

theorem replay_pending (f : Nat → Bool) (evs : List Event) :
    (replay f evs).pending_frees = [] := by
  unfold replay
  by_cases h : (runEvents f evs).pending_frees.isEmpty
  · rw [if_pos h]
    cases hq : (runEvents f evs).pending_frees with
    | nil => rfl
    | cons a l =>
        rw [hq] at h
        simp at h
  · rw [if_neg h]
    rfl

end oracle

/- ===================== claims C1 and C2 ===================== -/

/-- C1: in oracle mode, an Alloc event first drains the whole pending-free
queue - front to back, in FIFO insertion order, which is exactly what the
left-fold characterisation of the drain loop states: the frees queued in a
first block p run before those of a later block q - and only then
allocates, so the queue is empty immediately after every Alloc event
completes; the end-of-trace drain of replay leaves the queue empty as
well, so no queued free is ever dropped. -/
theorem c1_oracle_pending_free_protocol (f : Nat → Bool) :
    (∀ (st : oracle.OracleReplayerState) (e : oracle.Event),
      e.is_alloc = true → (oracle.stepEvent f st e).pending_frees = []) ∧
    (∀ evs : List oracle.Event, (oracle.replay f evs).pending_frees = []) ∧
    (∀ (st : oracle.OracleReplayerState) (p q : List oracle.Event),
      (p ++ q).foldl oracle.free_one st = q.foldl oracle.free_one (p.foldl oracle.free_one st)) :=
  ⟨fun st e h => oracle.stepEvent_alloc_pending f st e h,
   fun evs => oracle.replay_pending f evs,
   fun _ p q => List.foldl_append _ _ p q⟩

/-- C1 witness: a concrete alloc event processed on a state with one queued
free leaves the queue empty. -/
theorem c1_oracle_pending_free_protocol_witness :
    fixtures.evAlloc2.is_alloc = true ∧
    (oracle.stepEvent fixtures.alwaysOk
      (oracle.process_free fixtures.evFree1 oracle.initOracle)
      fixtures.evAlloc2).pending_frees = [] := by
  refine ⟨by decide, ?_⟩
  exact (c1_oracle_pending_free_protocol fixtures.alwaysOk).1 _ _ (by decide)

/-- C2 counterexample: the claim as stated fails.  Two Alloc events that
reuse object id 1 (the second overwrites the first live-table entry via
the std::map assignment) leave current_memory at 30 while the live table
holds a single 20-byte object: current-live-bytes does not equal the sum
of live sizes for every event sequence. -/
theorem c2_live_bytes_counterexample :
    (oracle.runEvents fixtures.alwaysOk [fixtures.evAlloc1, fixtures.evAlloc1b]).stats.current_memory = 30 ∧
    oracle.liveBytes (oracle.runEvents fixtures.alwaysOk
      [fixtures.evAlloc1, fixtures.evAlloc1b]).live_objects = 20 ∧
    (oracle.runEvents fixtures.alwaysOk [fixtures.evAlloc1, fixtures.evAlloc1b]).stats.current_memory ≠
      (oracle.liveBytes (oracle.runEvents fixtures.alwaysOk
        [fixtures.evAlloc1, fixtures.evAlloc1b]).live_objects : Int) := by
  refine ⟨by decide, by decide, by decide⟩

/-- C2 (amended): for every replayed event sequence, current-live-bytes is
never negative and peak-live-bytes is the running maximum of
current-live-bytes over the prefix; and provided no Alloc event targets
an object id still present in the live table at the moment the
allocation is recorded (freshAllocs - the condition the duplicate-id
counterexample forces), current-live-bytes equals the sum of the sizes
of the objects in the live table. -/
theorem c2_live_bytes_accounting (f : Nat → Bool) (evs : List oracle.Event) :
    0 ≤ (oracle.runEvents f evs).stats.current_memory ∧
    (oracle.runEvents f evs).stats.peak_memory
      = (oracle.currentsAfter f oracle.initOracle evs).foldl max 0 ∧
    (oracle.freshAllocs f oracle.initOracle evs = true →
      (oracle.runEvents f evs).stats.current_memory
        = (oracle.liveBytes (oracle.runEvents f evs).live_objects : Int)) := by
  have h1 : Tbl.keysNodup oracle.initOracle.live_objects := by
    simp [oracle.initOracle, Tbl.keysNodup]
  have h2 : (oracle.liveBytes oracle.initOracle.live_objects : Int)
      ≤ oracle.initOracle.stats.current_memory := by decide
  have h3 : oracle.initOracle.stats.current_memory
      ≤ oracle.initOracle.stats.peak_memory := by decide
  refine ⟨?_, ?_, ?_⟩
  · obtain ⟨_, hb, _⟩ := oracle.fold_inv f evs oracle.initOracle h1 h2 h3
    exact le_trans (Int.natCast_nonneg _) hb
  · exact oracle.peak_fold f evs oracle.initOracle h1 h3
  · intro hf
    have h2e : (oracle.liveBytes oracle.initOracle.live_objects : Int)
        = oracle.initOracle.stats.current_memory := by decide
    exact (oracle.fold_eq_of_fresh f evs oracle.initOracle h1 h2e hf).2.symm

/-- C2 witness: a concrete well-formed sequence (alloc 1, free 1, alloc 2)
satisfies the freshness condition and gets the exact accounting. -/
theorem c2_live_bytes_accounting_witness :
    oracle.freshAllocs fixtures.alwaysOk oracle.initOracle
      [fixtures.evAlloc1, fixtures.evFree1, fixtures.evAlloc2] = true ∧
    (oracle.runEvents fixtures.alwaysOk
      [fixtures.evAlloc1, fixtures.evFree1, fixtures.evAlloc2]).stats.current_memory
      = (oracle.liveBytes (oracle.runEvents fixtures.alwaysOk
          [fixtures.evAlloc1, fixtures.evFree1, fixtures.evAlloc2]).live_objects : Int) := by
  refine ⟨by decide, ?_⟩
  exact (c2_live_bytes_accounting fixtures.alwaysOk
    [fixtures.evAlloc1, fixtures.evFree1, fixtures.evAlloc2]).2.2 (by decide)

namespace Tbl

variable {K V : Type} [DecidableEq K]

theorem tlookup_tinsert_self (k : K) (v : V) (t : List (K × V)) :
    tlookup k (tinsert k v t) = some v := by
  unfold tinsert tlookup
  rw [if_pos rfl]

end Tbl

/- ===================== helper lemmas: enhanced model ===================== -/

namespace enhanced

open Tbl

theorem recordAllocation_current (s : Statistics) (size : Nat) :
    (s.recordAllocation size).currentMemoryUsage = s.currentMemoryUsage + size := by
  simp only [Statistics.recordAllocation]
  split <;> rfl

theorem recordAllocation_gcCollections (s : Statistics) (size : Nat) :
    (s.recordAllocation size).gcCollections = s.gcCollections := by
  simp only [Statistics.recordAllocation]
  split <;> rfl

theorem recordAllocation_totalAllocations (s : Statistics) (size : Nat) :
    (s.recordAllocation size).totalAllocations = s.totalAllocations + 1 := by
  simp only [Statistics.recordAllocation]
  split <;> rfl

theorem sweepOne_absent (st : GCSimulator) (deadId : Int)
    (h : tlookup deadId st.allocations = none) : sweepOne st deadId = st := by
  unfold sweepOne
  rw [h]

theorem sweepOne_frame (st : GCSimulator) (deadId : Int) :
    (sweepOne st deadId).stats.gcCollections = st.stats.gcCollections ∧
    (sweepOne st deadId).stats.totalAllocations = st.stats.totalAllocations ∧
    (sweepOne st deadId).deadObjects = st.deadObjects ∧
    (sweepOne st deadId).calls = st.calls ∧
    (sweepOne st deadId).gcThreshold = st.gcThreshold ∧
    (sweepOne st deadId).allocationThreshold = st.allocationThreshold ∧
    (sweepOne st deadId).allocationsSinceLastGC = st.allocationsSinceLastGC := by
  unfold sweepOne
  cases tlookup deadId st.allocations with
  | none => exact ⟨rfl, rfl, rfl, rfl, rfl, rfl, rfl⟩
  | some _ => exact ⟨rfl, rfl, rfl, rfl, rfl, rfl, rfl⟩

theorem sweepOne_lookup_none (st : GCSimulator) (i deadId : Int)
    (h : tlookup i st.allocations = none) :
    tlookup i (sweepOne st deadId).allocations = none := by
  unfold sweepOne
  cases tlookup deadId st.allocations with
  | none => exact h
  | some _ => exact tlookup_terase_none _ _ _ h

theorem sweepFold_frame (l : List Int) : ∀ st : GCSimulator,
    ((l.foldl sweepOne st)).stats.gcCollections = st.stats.gcCollections ∧
    ((l.foldl sweepOne st)).stats.totalAllocations = st.stats.totalAllocations ∧
    ((l.foldl sweepOne st)).deadObjects = st.deadObjects ∧
    ((l.foldl sweepOne st)).calls = st.calls ∧
    ((l.foldl sweepOne st)).gcThreshold = st.gcThreshold ∧
    ((l.foldl sweepOne st)).allocationThreshold = st.allocationThreshold := by
  induction l with
  | nil =>
      intro st
      exact ⟨rfl, rfl, rfl, rfl, rfl, rfl⟩
  | cons d rest ih =>
      intro st
      obtain ⟨a1, a2, a3, a4, a5, a6, _⟩ := sweepOne_frame st d
      obtain ⟨b1, b2, b3, b4, b5, b6⟩ := ih (sweepOne st d)
      rw [List.foldl_cons]
      exact ⟨b1.trans a1, b2.trans a2, b3.trans a3, b4.trans a4, b5.trans a5, b6.trans a6⟩

theorem sweepFold_lookup_none (l : List Int) : ∀ (st : GCSimulator) (i : Int),
    tlookup i st.allocations = none →
    tlookup i ((l.foldl sweepOne st)).allocations = none := by
  induction l with
  | nil =>
      intro st i h
      exact h
  | cons d rest ih =>
      intro st i h
      rw [List.foldl_cons]
      exact ih (sweepOne st d) i (sweepOne_lookup_none st i d h)

theorem performGC_gcCollections (st : GCSimulator) :
    st.performGC.stats.gcCollections = st.stats.gcCollections + 1 := by
  unfold GCSimulator.performGC
  show ((st.deadObjects.foldl sweepOne st).stats.recordGC 0).gcCollections
    = st.stats.gcCollections + 1
  rw [show ∀ s : Statistics, (s.recordGC 0).gcCollections = s.gcCollections + 1 from fun s => rfl,
    (sweepFold_frame st.deadObjects st).1]

theorem performGC_frame (st : GCSimulator) :
    st.performGC.deadObjects = [] ∧
    st.performGC.allocationsSinceLastGC = 0 ∧
    st.performGC.calls = st.calls ∧
    st.performGC.gcThreshold = st.gcThreshold ∧
    st.performGC.allocationThreshold = st.allocationThreshold ∧
    st.performGC.stats.totalAllocations = st.stats.totalAllocations := by
  unfold GCSimulator.performGC
  obtain ⟨_, b2, _, b4, b5, b6⟩ := sweepFold_frame st.deadObjects st
  exact ⟨rfl, rfl, b4, b5, b6, b2⟩

theorem performGC_lookup_none (st : GCSimulator) (i : Int)
    (h : tlookup i st.allocations = none) :
    tlookup i st.performGC.allocations = none := by
  unfold GCSimulator.performGC
  exact sweepFold_lookup_none st.deadObjects st i h

theorem performGC_empty_dead (st : GCSimulator) (h : st.deadObjects = []) :
    st.performGC = { st with
      allocationsSinceLastGC := 0
      stats := { st.stats with gcCollections := st.stats.gcCollections + 1 } } := by
  unfold GCSimulator.performGC
  rw [h]
  show { st with
      deadObjects := [], allocationsSinceLastGC := 0
      stats := st.stats.recordGC 0 } = _
  unfold Statistics.recordGC
  rw [← h]
  simp

theorem gc_alloc_trigger (f : Nat → Bool) (st : GCSimulator) (size : Nat) (objectId : Int)
    (hok : f st.calls = true) :
    (GCSimulator.allocate f size objectId st).2.stats.gcCollections
      = st.stats.gcCollections +
        (if st.stats.currentMemoryUsage + size > (st.gcThreshold : Int) ∨
            st.allocationsSinceLastGC + 1 > st.allocationThreshold then 1 else 0) := by
  simp only [GCSimulator.allocate, GCSimulator.allocFinish, hok, if_true]
  rw [recordAllocation_current]
  by_cases hc : st.stats.currentMemoryUsage + size > (st.gcThreshold : Int) ∨
      st.allocationsSinceLastGC + 1 > st.allocationThreshold
  · rw [if_pos hc, if_pos hc, performGC_gcCollections, recordAllocation_gcCollections]
  · rw [if_neg hc, if_neg hc, recordAllocation_gcCollections, Nat.add_zero]

theorem gc_alloc_backend_failure (f : Nat → Bool) (st : GCSimulator) (size : Nat)
    (objectId : Int) (h1 : f st.calls = false) :
    (f (st.calls + 1) = false →
      (GCSimulator.allocate f size objectId st).1 = none ∧
      (GCSimulator.allocate f size objectId st).2.stats.gcCollections
        = st.stats.gcCollections + 1 ∧
      (GCSimulator.allocate f size objectId st).2.stats.totalAllocations
        = st.stats.totalAllocations ∧
      (GCSimulator.allocate f size objectId st).2.calls = st.calls + 2 ∧
      (Tbl.tlookup objectId st.allocations = none →
        Tbl.tlookup objectId (GCSimulator.allocate f size objectId st).2.allocations = none)) ∧
    (f (st.calls + 1) = true →
      (GCSimulator.allocate f size objectId st).1 = some (st.calls + 1) ∧
      Tbl.tlookup objectId (GCSimulator.allocate f size objectId st).2.allocations
        = some (st.calls + 1) ∧
      Tbl.tlookup objectId (GCSimulator.allocate f size objectId st).2.sizes = some size ∧
      (GCSimulator.allocate f size objectId st).2.stats.totalAllocations
        = st.stats.totalAllocations + 1 ∧
      (GCSimulator.allocate f size objectId st).2.calls = st.calls + 2) := by
  have hc1 : ¬ f st.calls = true := by simp [h1]
  have hcalls : (({st with calls := st.calls + 1} : GCSimulator).performGC).calls
      = st.calls + 1 := (performGC_frame _).2.2.1
  constructor
  · intro h2
    have hc2 : ¬ f (({st with calls := st.calls + 1} : GCSimulator).performGC).calls = true := by
      rw [hcalls, h2]
      simp
    simp only [GCSimulator.allocate]
    rw [if_neg hc1, if_neg hc2]
    refine ⟨rfl, ?_, ?_, ?_, ?_⟩
    · exact performGC_gcCollections ({st with calls := st.calls + 1} : GCSimulator)
    · exact (performGC_frame ({st with calls := st.calls + 1} : GCSimulator)).2.2.2.2.2
    · show (({st with calls := st.calls + 1} : GCSimulator).performGC).calls + 1 = st.calls + 2
      rw [hcalls]
    · intro hnone
      exact performGC_lookup_none ({st with calls := st.calls + 1} : GCSimulator) objectId hnone
  · intro h2
    have hc2 : f (({st with calls := st.calls + 1} : GCSimulator).performGC).calls = true := by
      rw [hcalls]
      exact h2
    simp only [GCSimulator.allocate]
    rw [if_neg hc1, if_pos hc2]
    simp only [GCSimulator.allocFinish]
    split
    · next hcnd =>
        have hdead : ({({st with calls := st.calls + 1} : GCSimulator).performGC with
            calls := (({st with calls := st.calls + 1} : GCSimulator).performGC).calls + 1,
            allocations := Tbl.tinsert objectId
              ((({st with calls := st.calls + 1} : GCSimulator).performGC)).calls
              ((({st with calls := st.calls + 1} : GCSimulator).performGC)).allocations,
            sizes := Tbl.tinsert objectId size
              ((({st with calls := st.calls + 1} : GCSimulator).performGC)).sizes,
            stats := ((({st with calls := st.calls + 1} : GCSimulator).performGC)).stats.recordAllocation size,
            allocationsSinceLastGC :=
              ((({st with calls := st.calls + 1} : GCSimulator).performGC)).allocationsSinceLastGC + 1
            } : GCSimulator).deadObjects = [] :=
          (performGC_frame ({st with calls := st.calls + 1} : GCSimulator)).1
        rw [performGC_empty_dead _ hdead]
        refine ⟨by rw [hcalls], ?_, ?_, ?_, ?_⟩
        · show Tbl.tlookup objectId (Tbl.tinsert objectId
            ((({st with calls := st.calls + 1} : GCSimulator).performGC)).calls
            ((({st with calls := st.calls + 1} : GCSimulator).performGC)).allocations)
              = some (st.calls + 1)
          rw [Tbl.tlookup_tinsert_self, hcalls]
        · exact Tbl.tlookup_tinsert_self _ _ _
        · show (((({st with calls := st.calls + 1} : GCSimulator).performGC)).stats.recordAllocation
              size).totalAllocations = st.stats.totalAllocations + 1
          rw [recordAllocation_totalAllocations,
            (performGC_frame ({st with calls := st.calls + 1} : GCSimulator)).2.2.2.2.2]
        · show (({st with calls := st.calls + 1} : GCSimulator).performGC).calls + 1 = st.calls + 2
          rw [hcalls]
    · next hcnd =>
        refine ⟨by rw [hcalls], ?_, ?_, ?_, ?_⟩
        · show Tbl.tlookup objectId (Tbl.tinsert objectId
            ((({st with calls := st.calls + 1} : GCSimulator).performGC)).calls
            ((({st with calls := st.calls + 1} : GCSimulator).performGC)).allocations)
              = some (st.calls + 1)
          rw [Tbl.tlookup_tinsert_self, hcalls]
        · exact Tbl.tlookup_tinsert_self _ _ _
        · show (((({st with calls := st.calls + 1} : GCSimulator).performGC)).stats.recordAllocation
              size).totalAllocations = st.stats.totalAllocations + 1
          rw [recordAllocation_totalAllocations,
            (performGC_frame ({st with calls := st.calls + 1} : GCSimulator)).2.2.2.2.2]
        · show (({st with calls := st.calls + 1} : GCSimulator).performGC).calls + 1 = st.calls + 2
          rw [hcalls]

end enhanced

/- ===================== claims C3, C4, C5 ===================== -/

/-- C3: in GC mode the collection check runs after every successful
allocation and a collection runs exactly when the post-allocation
current-live-bytes strictly exceeds the byte threshold or the bumped
since-last-collection allocation count strictly exceeds the count
threshold, OR-combined (first conjunct: collection count rises by one
exactly when the OR-condition holds); and with allocation-count
threshold 2 the sequence alloc 1, death 1, alloc 2, death 2, alloc 3
triggers exactly one sweep, which reclaims objects 1 and 2 and leaves
object 3 live, before any further event. -/
theorem c3_gc_collection_trigger :
    (∀ (f : Nat → Bool) (st : enhanced.GCSimulator) (size : Nat) (objectId : Int),
      f st.calls = true →
      (enhanced.GCSimulator.allocate f size objectId st).2.stats.gcCollections
        = st.stats.gcCollections +
          (if st.stats.currentMemoryUsage + size > (st.gcThreshold : Int) ∨
              st.allocationsSinceLastGC + 1 > st.allocationThreshold then 1 else 0)) ∧
    (enhanced.runGCOps fixtures.alwaysOk fixtures.gcCount2
        fixtures.gcScenarioOps).stats.gcCollections = 1 ∧
    Tbl.tlookup 1 (enhanced.runGCOps fixtures.alwaysOk fixtures.gcCount2
        fixtures.gcScenarioOps).allocations = none ∧
    Tbl.tlookup 2 (enhanced.runGCOps fixtures.alwaysOk fixtures.gcCount2
        fixtures.gcScenarioOps).allocations = none ∧
    (Tbl.tlookup 3 (enhanced.runGCOps fixtures.alwaysOk fixtures.gcCount2
        fixtures.gcScenarioOps).allocations).isSome = true ∧
    (enhanced.runGCOps fixtures.alwaysOk fixtures.gcCount2
        fixtures.gcScenarioOps).deadObjects = [] ∧
    (enhanced.runGCOps fixtures.alwaysOk fixtures.gcCount2
        fixtures.gcScenarioOps).stats.totalDeallocations = 2 :=
  ⟨fun f st size objectId hok => enhanced.gc_alloc_trigger f st size objectId hok,
   by decide, by decide, by decide, by decide, by decide, by decide⟩

/-- C3 witness: the trigger characterisation applied at a concrete
successful allocation on the empty GC state. -/
theorem c3_gc_collection_trigger_witness :
    fixtures.alwaysOk fixtures.gcEmpty.calls = true ∧
    (enhanced.GCSimulator.allocate fixtures.alwaysOk 16 1 fixtures.gcEmpty).2.stats.gcCollections
      = fixtures.gcEmpty.stats.gcCollections +
        (if fixtures.gcEmpty.stats.currentMemoryUsage + 16 > (fixtures.gcEmpty.gcThreshold : Int) ∨
            fixtures.gcEmpty.allocationsSinceLastGC + 1 > fixtures.gcEmpty.allocationThreshold
         then 1 else 0) :=
  ⟨by decide, (c3_gc_collection_trigger).1 fixtures.alwaysOk fixtures.gcEmpty 16 1 (by decide)⟩

/-- C4: in GC mode a backend null triggers one immediate collection and
exactly one retry; a second null makes allocate return null with the
collection counted, no allocation recorded, and no live-table entry
created for an id that was not already live; a successful retry
proceeds like a normal allocation (handle returned, entry and size
recorded, allocation counted). -/
theorem c4_gc_allocation_failure_retry (f : Nat → Bool) (st : enhanced.GCSimulator)
    (size : Nat) (objectId : Int) (h1 : f st.calls = false) :
    (f (st.calls + 1) = false →
      (enhanced.GCSimulator.allocate f size objectId st).1 = none ∧
      (enhanced.GCSimulator.allocate f size objectId st).2.stats.gcCollections
        = st.stats.gcCollections + 1 ∧
      (enhanced.GCSimulator.allocate f size objectId st).2.stats.totalAllocations
        = st.stats.totalAllocations ∧
      (enhanced.GCSimulator.allocate f size objectId st).2.calls = st.calls + 2 ∧
      (Tbl.tlookup objectId st.allocations = none →
        Tbl.tlookup objectId
          (enhanced.GCSimulator.allocate f size objectId st).2.allocations = none)) ∧
    (f (st.calls + 1) = true →
      (enhanced.GCSimulator.allocate f size objectId st).1 = some (st.calls + 1) ∧
      Tbl.tlookup objectId (enhanced.GCSimulator.allocate f size objectId st).2.allocations
        = some (st.calls + 1) ∧
      Tbl.tlookup objectId (enhanced.GCSimulator.allocate f size objectId st).2.sizes
        = some size ∧
      (enhanced.GCSimulator.allocate f size objectId st).2.stats.totalAllocations
        = st.stats.totalAllocations + 1 ∧
      (enhanced.GCSimulator.allocate f size objectId st).2.calls = st.calls + 2) :=
  enhanced.gc_alloc_backend_failure f st size objectId h1

/-- C4 witness: both failure branches exercised concretely - a backend
that always fails, and one that fails only on the first request. -/
theorem c4_gc_allocation_failure_retry_witness :
    fixtures.neverOk fixtures.gcEmpty.calls = false ∧
    fixtures.neverOk (fixtures.gcEmpty.calls + 1) = false ∧
    (enhanced.GCSimulator.allocate fixtures.neverOk 16 5 fixtures.gcEmpty).1 = none ∧
    fixtures.okFromSecond fixtures.gcEmpty.calls = false ∧
    fixtures.okFromSecond (fixtures.gcEmpty.calls + 1) = true ∧
    (enhanced.GCSimulator.allocate fixtures.okFromSecond 16 5 fixtures.gcEmpty).1
      = some (fixtures.gcEmpty.calls + 1) :=
  ⟨by decide, by decide,
   ((c4_gc_allocation_failure_retry fixtures.neverOk fixtures.gcEmpty 16 5 (by decide)).1
     (by decide)).1,
   by decide, by decide,
   ((c4_gc_allocation_failure_retry fixtures.okFromSecond fixtures.gcEmpty 16 5 (by decide)).2
     (by decide)).1⟩

/-- C5 counterexample: the claim as stated fails - re-sweeping immediately
after a previous sweep is not a no-op, because every performGC call
unconditionally increments the collection counter, so the second sweep
changes the statistics. -/
theorem c5_sweep_idempotent_counterexample :
    fixtures.gcEmpty.performGC.performGC ≠ fixtures.gcEmpty.performGC ∧
    fixtures.gcEmpty.performGC.performGC.stats.gcCollections = 2 ∧
    fixtures.gcEmpty.performGC.stats.gcCollections = 1 := by
  refine ⟨by decide, by decide, by decide⟩

/-- C5 (amended): a sweep of an empty dead set changes nothing except the
collection bookkeeping (it resets the since-last-collection counter to
zero and increments the collection count; live table, sizes, dead set
and all byte counters are untouched); the per-id sweep step is a
complete no-op for any dead id absent from the live table (no
double-release effect); and after every pass the dead set is empty and
the since-last-collection counter is zero, unconditionally. -/
theorem c5_sweep_idempotent_amended :
    (∀ st : enhanced.GCSimulator, st.deadObjects = [] →
      st.performGC = { st with
        allocationsSinceLastGC := 0
        stats := { st.stats with gcCollections := st.stats.gcCollections + 1 } }) ∧
    (∀ (st : enhanced.GCSimulator) (deadId : Int),
      Tbl.tlookup deadId st.allocations = none → enhanced.sweepOne st deadId = st) ∧
    (∀ st : enhanced.GCSimulator,
      st.performGC.deadObjects = [] ∧ st.performGC.allocationsSinceLastGC = 0) :=
  ⟨fun st h => enhanced.performGC_empty_dead st h,
   fun st deadId h => enhanced.sweepOne_absent st deadId h,
   fun st => ⟨(enhanced.performGC_frame st).1, (enhanced.performGC_frame st).2.1⟩⟩

/-- C5 witness: the empty-dead-set sweep equation and the absent-id sweep
step instantiated on the empty GC state. -/
theorem c5_sweep_idempotent_amended_witness :
    fixtures.gcEmpty.performGC = { fixtures.gcEmpty with
      allocationsSinceLastGC := 0
      stats := { fixtures.gcEmpty.stats with
        gcCollections := fixtures.gcEmpty.stats.gcCollections + 1 } } ∧
    enhanced.sweepOne fixtures.gcEmpty 7 = fixtures.gcEmpty :=
  ⟨(c5_sweep_idempotent_amended).1 fixtures.gcEmpty (by decide),
   (c5_sweep_idempotent_amended).2.1 fixtures.gcEmpty 7 (by decide)⟩

/- ===================== claims C6, C7, C8, C9, C10 ===================== -/

/-- C6: the claim promises that every malformed line is a recoverable
ParseFailure and that parsing never aborts the process.  The code
violates this: OracleReplayer::parse_event calls std::stoull with no
try/catch, so a non-numeric required field ("abc" as the timestamp)
throws an uncaught std::invalid_argument and terminates the whole
replay (first two conjuncts); only wrong arity takes the recoverable
return-false path (third conjunct).  The C parser diverges differently:
atoi turns a non-numeric object id into 0 and the line still produces
an allocation event for object 0 instead of being dropped (last two
conjuncts). -/
theorem c6_parse_failure_aborts :
    oracle.parse_event "abc,alloc,1,8,0,0,0" = oracle.ParseOutcome.crash ∧
    oracle.load_oracle_events ["header", "abc,alloc,1,8,0,0,0"] = oracle.LoadResult.crashed ∧
    oracle.parse_event "1,alloc" = oracle.ParseOutcome.failed ∧
    (creplay.parse_csv_line true "1,alloc,abc,64" fixtures.csEmpty).total_allocations = 1 ∧
    creplay.cfind 0 (creplay.parse_csv_line true "1,alloc,abc,64" fixtures.csEmpty).table
      = some 64 := by
  refine ⟨by decide, by decide, by decide, by decide, by decide⟩

/-- C7 counterexample: the claim asserts a stable tie-break, but ingestion
sorts with std::sort, whose contract only guarantees some sorted
permutation: for two distinct events sharing timestamp 5, the reversed
order is also a legal sort outcome, so original input order among equal
timestamps is not preserved by the code. -/
theorem c7_sort_stability_counterexample :
    oracle.isSortOutcome [fixtures.evT5a, fixtures.evT5b] [fixtures.evT5b, fixtures.evT5a] ∧
    [fixtures.evT5b, fixtures.evT5a] ≠ [fixtures.evT5a, fixtures.evT5b] := by
  exact ⟨⟨by decide, by decide⟩, by decide⟩

/-- C7 (amended): after ingestion the event sequence is a permutation of
the parsed events sorted by timestamp ascending - this holds for every
input file, sorted or not, because the sort is always applied - but the
order among equal-timestamp events is unspecified (std::sort, not
std::stable_sort).  The second conjunct shows a sorted outcome always
exists. -/
theorem c7_sorted_after_ingestion :
    (∀ (lines : List String) (evs out : List oracle.Event),
      oracle.load_oracle_events lines = oracle.LoadResult.loaded evs →
      oracle.isSortOutcome evs out →
      out.Pairwise oracle.tsLe ∧ out.Perm evs) ∧
    (∀ evs : List oracle.Event,
      oracle.isSortOutcome evs (List.insertionSort oracle.tsLe evs)) :=
  ⟨fun _ _ _ _ hsort => ⟨hsort.2, hsort.1.symm⟩,
   fun evs => ⟨(List.perm_insertionSort oracle.tsLe evs).symm,
     List.sorted_insertionSort oracle.tsLe evs⟩⟩

/-- C7 witness: a concrete unsorted file (timestamps 5 then 3) whose
sorted outcome [ts 3, ts 5] is certified by the theorem. -/
theorem c7_sorted_after_ingestion_witness :
    oracle.load_oracle_events fixtures.unsortedLines
      = oracle.LoadResult.loaded [fixtures.evT5a, fixtures.evT3] ∧
    oracle.isSortOutcome [fixtures.evT5a, fixtures.evT3] [fixtures.evT3, fixtures.evT5a] ∧
    [fixtures.evT3, fixtures.evT5a].Pairwise oracle.tsLe :=
  ⟨by decide, ⟨by decide, by decide⟩,
   (c7_sorted_after_ingestion.1 fixtures.unsortedLines [fixtures.evT5a, fixtures.evT3]
      [fixtures.evT3, fixtures.evT5a] (by decide) ⟨by decide, by decide⟩).1⟩

/-- C8 counterexample: the claim requires every unknown-id free to bump a
failed-free counter, but the Enhanced replayer has no such counter:
ExplicitMemoryManager::deallocate of an absent id returns with the
state - every statistics field included - completely unchanged, so
nothing is incremented by 1. -/
theorem c8_failed_free_counterexample :
    enhanced.ExplicitMemoryManager.deallocate 999 0 fixtures.emEmpty = fixtures.emEmpty := by
  decide

/-- C8 (amended): a free of an object id absent from the live table is a
non-fatal no-op on memory and byte counters in both replayers; the C
replayer additionally increments failed_frees by exactly 1 (the state
changes in no other way), while the Enhanced replayer deallocate is a
complete no-op because it has no failed-free counter. -/
theorem c8_unknown_free_amended :
    (∀ (st : creplay.AllocatorStats) (object_id : Int),
      creplay.cfind object_id st.table = none →
      creplay.handle_free st object_id
        = { st with failed_frees := st.failed_frees + 1 }) ∧
    (∀ (st : enhanced.ExplicitMemoryManager) (objectId : Int) (size : Nat),
      Tbl.tlookup objectId st.allocations = none →
      enhanced.ExplicitMemoryManager.deallocate objectId size st = st) := by
  constructor
  · intro st object_id h
    unfold creplay.handle_free
    rw [h]
  · intro st objectId size h
    unfold enhanced.ExplicitMemoryManager.deallocate
    rw [h]

/-- C8 witness: the unknown id 999 against the empty state in both
replayers. -/
theorem c8_unknown_free_amended_witness :
    creplay.handle_free fixtures.csEmpty 999
      = { fixtures.csEmpty with failed_frees := fixtures.csEmpty.failed_frees + 1 } ∧
    enhanced.ExplicitMemoryManager.deallocate 999 0 fixtures.emEmpty = fixtures.emEmpty :=
  ⟨c8_unknown_free_amended.1 fixtures.csEmpty 999 (by decide),
   c8_unknown_free_amended.2 fixtures.emEmpty 999 0 (by decide)⟩

/-- C9 counterexample: the claim says an object id whose backend request
returned null never enters the live object table and no null-handle
entry is ever created, but TraceReplayer::handleObjectAllocation
records the AllocationRecord unconditionally: after a failed backend
request for object 7, the driver liveObjects table holds an entry for
id 7 whose address is null. -/
theorem c9_null_entry_counterexample :
    Tbl.tlookup 7 (enhanced.handleObjectAllocation fixtures.neverOk 7 16 0 0 0 0 false
        fixtures.trEmpty).liveObjects
      = some { objectId := 7, size := 16, typeId := 0, siteId := 0, length := 0,
               threadId := 0, address := none, isArray := false } ∧
    (enhanced.ExplicitMemoryManager.allocate fixtures.neverOk 16 7 fixtures.emEmpty).1
      = none := by
  exact ⟨by decide, by decide⟩

/-- C9 (amended): when the backend returns null, the C replayer counts the
failure and creates no entry (the state changes only by
failed_allocations + 1); the Enhanced manager likewise returns null and
creates no manager entry (only its request counter advances) - but the
Enhanced driver then stores an AllocationRecord with a null address in
its liveObjects table, so at the driver layer the object id does enter
the live table. -/
theorem c9_allocation_failure_amended :
    (∀ (st : creplay.AllocatorStats) (object_id : Int) (size : Nat),
      creplay.handle_alloc false st object_id size
        = { st with failed_allocations := st.failed_allocations + 1 }) ∧
    (∀ (f : Nat → Bool) (st : enhanced.ExplicitMemoryManager) (size : Nat) (objectId : Int),
      f st.calls = false →
      (enhanced.ExplicitMemoryManager.allocate f size objectId st).1 = none ∧
      (enhanced.ExplicitMemoryManager.allocate f size objectId st).2
        = { st with calls := st.calls + 1 }) ∧
    (∀ (f : Nat → Bool) (st : enhanced.TraceReplayerSt) (objectId : Int) (size : Nat)
        (typeId siteId length threadId : Int) (isArray : Bool),
      f st.mm.calls = false →
      Tbl.tlookup objectId
        (enhanced.handleObjectAllocation f objectId size typeId siteId length threadId
          isArray st).liveObjects
        = some { objectId := objectId, size := size, typeId := typeId, siteId := siteId,
                 length := length, threadId := threadId, address := none,
                 isArray := isArray }) := by
  refine ⟨fun st object_id size => rfl, ?_, ?_⟩
  · intro f st size objectId h
    have hc : ¬ f st.calls = true := by simp [h]
    simp only [enhanced.ExplicitMemoryManager.allocate]
    rw [if_neg hc]
    exact ⟨rfl, rfl⟩
  · intro f st objectId size typeId siteId length threadId isArray h
    have hc : ¬ f st.mm.calls = true := by simp [h]
    have hfail : (enhanced.ExplicitMemoryManager.allocate f size objectId st.mm).1 = none := by
      simp only [enhanced.ExplicitMemoryManager.allocate]
      rw [if_neg hc]
    unfold enhanced.handleObjectAllocation
    rw [Tbl.tlookup_tinsert_self, hfail]

/-- C9 witness: the Enhanced failure path instantiated with the
always-failing backend for object 7. -/
theorem c9_allocation_failure_amended_witness :
    fixtures.neverOk fixtures.emEmpty.calls = false ∧
    (enhanced.ExplicitMemoryManager.allocate fixtures.neverOk 16 7 fixtures.emEmpty).2
      = { fixtures.emEmpty with calls := fixtures.emEmpty.calls + 1 } ∧
    Tbl.tlookup 7 (enhanced.handleObjectAllocation fixtures.neverOk 7 16 0 0 0 0 false
        fixtures.trEmpty).liveObjects
      = some { objectId := 7, size := 16, typeId := 0, siteId := 0, length := 0,
               threadId := 0, address := none, isArray := false } :=
  ⟨by decide,
   (c9_allocation_failure_amended.2.1 fixtures.neverOk fixtures.emEmpty 16 7 (by decide)).2,
   c9_allocation_failure_amended.2.2 fixtures.neverOk fixtures.trEmpty 7 16 0 0 0 0 false
     (by decide)⟩

/-- C10: the oracle loader discards the first line of every oracle CSV
unconditionally and before any parsing (load on any cons is literally
the read loop on the tail), so even a perfectly well-formed event row
in first position - here a parseable alloc of object 1 - never enters
the event sequence. -/
theorem c10_header_skip_positional :
    (∀ (l : String) (rest : List String),
      oracle.load_oracle_events (l :: rest) = oracle.load_lines rest) ∧
    oracle.parse_event "0,alloc,1,8,0,0,0" = oracle.ParseOutcome.ok
      { timestamp := 0, event_type := "alloc".data, object_id := 1, size := 8,
        site_id := 0, thread_id := 0, type_id := 0 } ∧
    oracle.load_oracle_events ["0,alloc,1,8,0,0,0"] = oracle.LoadResult.loaded [] :=
  ⟨fun _ _ => rfl, by decide, by decide⟩
